import Mathlib

/-!
Verification development for the Aegis MCP server (`src/rust/src/main.rs`),
a line-oriented JSON-RPC dispatcher.  JSON documents are shallowly embedded
as the inductive `Json`; `serde_json` parsing of one input line is embedded
as a fuel-based recursive-descent routine over the line's characters, and
the derived `Deserialize`/`Serialize` instances for the request/response
structs are embedded as explicit conversion functions.
-/

/-- A JSON document, as `serde_json::Value`: numbers keep their source
lexeme (the code never does arithmetic on them), objects are ordered
member lists. -/
inductive Json where
  | null : Json
  | bool (b : Bool) : Json
  | num (lexeme : String) : Json
  | str (s : String) : Json
  | arr (items : List Json) : Json
  | obj (members : List (String × Json)) : Json

/-- First member of an object member list with the given key. -/
def lookupMember : List (String × Json) → String → Option Json
  | [], _ => none
  | (k, v) :: rest, key => if k = key then some v else lookupMember rest key

/-- Models `serde_json::Value::get(key)`: `some` only for an object that has
the key. -/
def Json.get (j : Json) (key : String) : Option Json :=
  match j with
  | Json.obj ms => lookupMember ms key
  | _ => none

/-- Models indexing `value[key]` on a `serde_json::Value`: yields `Null`
when the value is not an object or lacks the key. -/
def Json.index (j : Json) (key : String) : Json :=
  (j.get key).getD Json.null

/-- Models `serde_json::Value::as_str`. -/
def Json.asStr : Json → Option String
  | Json.str s => some s
  | _ => none

/-- Whether the document is a JSON object. -/
def Json.isObj : Json → Bool
  | Json.obj _ => true
  | _ => false

/-- Whether the document is an object carrying the given key. -/
def Json.hasKey (j : Json) (key : String) : Bool :=
  match j with
  | Json.obj ms => ms.any (fun kv => kv.1 = key)
  | _ => false

/- Characters written via code points so that no brace, quote or backslash
character literal appears in the file. -/

/-- The character `"`. -/
def quoteChar : Char := Char.ofNat 34

/-- The character `\`. -/
def backslashChar : Char := Char.ofNat 92

/-- The opening-brace character. -/
def lbraceChar : Char := Char.ofNat 123

/-- The closing-brace character. -/
def rbraceChar : Char := Char.ofNat 125

/-- JSON structural whitespace. -/
def isJsonWs (c : Char) : Bool :=
  c = ' ' || c = '\t' || c = '\n' || c = '\r'

/-- Drop leading JSON whitespace. -/
def skipWs : List Char → List Char
  | [] => []
  | c :: cs => if isJsonWs c then skipWs cs else c :: cs

/-- ASCII decimal digit test. -/
def isDigitChar (c : Char) : Bool :=
  '0' ≤ c && c ≤ '9'

/-- Longest digit run at the head of the input. -/
def takeDigits : List Char → List Char × List Char
  | [] => ([], [])
  | c :: cs =>
    if isDigitChar c then
      let (ds, rest) := takeDigits cs
      (c :: ds, rest)
    else ([], c :: cs)

/-- Strip an expected literal from the head of the input. -/
def stripPfx : List Char → List Char → Option (List Char)
  | [], cs => some cs
  | _ :: _, [] => none
  | p :: ps, c :: cs => if c = p then stripPfx ps cs else none

/-- Value of a hexadecimal digit, over code points: `0`–`9` are 48–57,
`A`–`F` are 65–70, `a`–`f` are 97–102. -/
def hexDigitVal (c : Char) : Option Nat :=
  let n := c.toNat
  if 48 ≤ n && n ≤ 57 then some (n - 48)
  else if 97 ≤ n && n ≤ 102 then some (n - 87)
  else if 65 ≤ n && n ≤ 70 then some (n - 55)
  else none

/-- Optional fraction part of a JSON number, appended to the lexeme. -/
def lexFrac (acc : List Char) (cs : List Char) : Except String (List Char × List Char) :=
  match cs with
  | '.' :: rest =>
    let (ds, rest2) := takeDigits rest
    if ds.isEmpty then Except.error "invalid number" else Except.ok (acc ++ '.' :: ds, rest2)
  | _ => Except.ok (acc, cs)

/-- Optional exponent part of a JSON number, appended to the lexeme. -/
def lexExp (acc : List Char) (cs : List Char) : Except String (List Char × List Char) :=
  match cs with
  | [] => Except.ok (acc, cs)
  | c :: rest =>
    if c = 'e' || c = 'E' then
      let (sgn, rest2) :=
        match rest with
        | [] => (([] : List Char), rest)
        | s :: r2 => if s = '+' || s = '-' then ([s], r2) else ([], rest)
      let (ds, rest3) := takeDigits rest2
      if ds.isEmpty then Except.error "invalid number" else Except.ok (acc ++ c :: (sgn ++ ds), rest3)
    else Except.ok (acc, cs)

/-- Lex a JSON number, returning its lexeme (the JSON number grammar:
optional minus, integer part without leading zeros, optional fraction and
exponent). -/
def lexNumber (cs : List Char) : Except String (String × List Char) :=
  let (sgnChars, cs1) :=
    match cs with
    | '-' :: rest => (['-'], rest)
    | _ => (([] : List Char), cs)
  match cs1 with
  | [] => Except.error "invalid number"
  | c :: rest =>
    if c = '0' then
      match lexFrac (sgnChars ++ ['0']) rest with
      | Except.error e => Except.error e
      | Except.ok (acc2, rest2) =>
        match lexExp acc2 rest2 with
        | Except.error e => Except.error e
        | Except.ok (acc3, rest3) => Except.ok (String.mk acc3, rest3)
    else if isDigitChar c then
      let (ds, restd) := takeDigits rest
      match lexFrac (sgnChars ++ c :: ds) restd with
      | Except.error e => Except.error e
      | Except.ok (acc2, rest2) =>
        match lexExp acc2 rest2 with
        | Except.error e => Except.error e
        | Except.ok (acc3, rest3) => Except.ok (String.mk acc3, rest3)
    else Except.error "invalid number"

/-- Lex the body of a JSON string (the opening quote already consumed),
handling the escape sequences of the JSON grammar. -/
def lexStrBody : Nat → List Char → List Char → Except String (String × List Char)
  | 0, _, _ => Except.error "string too long"
  | _ + 1, _, [] => Except.error "unterminated string"
  | fuel + 1, acc, c :: cs =>
    if c = quoteChar then Except.ok (String.mk acc.reverse, cs)
    else if c = backslashChar then
      match cs with
      | [] => Except.error "unterminated string"
      | e :: cs2 =>
        if e = quoteChar then lexStrBody fuel (quoteChar :: acc) cs2
        else if e = backslashChar then lexStrBody fuel (backslashChar :: acc) cs2
        else if e = '/' then lexStrBody fuel ('/' :: acc) cs2
        else if e = 'b' then lexStrBody fuel (Char.ofNat 8 :: acc) cs2
        else if e = 'f' then lexStrBody fuel (Char.ofNat 12 :: acc) cs2
        else if e = 'n' then lexStrBody fuel ('\n' :: acc) cs2
        else if e = 'r' then lexStrBody fuel ('\r' :: acc) cs2
        else if e = 't' then lexStrBody fuel ('\t' :: acc) cs2
        else if e = 'u' then
          match cs2 with
          | h1 :: h2 :: h3 :: h4 :: cs3 =>
            match hexDigitVal h1, hexDigitVal h2, hexDigitVal h3, hexDigitVal h4 with
            | some a, some b, some c2, some d =>
              lexStrBody fuel (Char.ofNat (((a * 16 + b) * 16 + c2) * 16 + d) :: acc) cs3
            | _, _, _, _ => Except.error "invalid unicode escape"
          | _ => Except.error "invalid unicode escape"
        else Except.error "invalid escape"
    else if c.toNat < 32 then Except.error "control character in string"
    else lexStrBody fuel (c :: acc) cs

mutual

/-- Recursive-descent parse of one JSON value (fuel-bounded), modeling
`serde_json` parsing. -/
def parseVal : Nat → List Char → Except String (Json × List Char)
  | 0, _ => Except.error "recursion limit exceeded"
  | fuel + 1, cs =>
    match skipWs cs with
    | [] => Except.error "unexpected end of input"
    | c :: rest =>
      if c = quoteChar then
        match lexStrBody (rest.length + 1) [] rest with
        | Except.error e => Except.error e
        | Except.ok (s, rest2) => Except.ok (Json.str s, rest2)
      else if c = lbraceChar then parseMembers fuel rest
      else if c = '[' then parseItems fuel rest
      else if c = 'n' then
        match stripPfx ['u', 'l', 'l'] rest with
        | some rest2 => Except.ok (Json.null, rest2)
        | none => Except.error "invalid literal"
      else if c = 't' then
        match stripPfx ['r', 'u', 'e'] rest with
        | some rest2 => Except.ok (Json.bool true, rest2)
        | none => Except.error "invalid literal"
      else if c = 'f' then
        match stripPfx ['a', 'l', 's', 'e'] rest with
        | some rest2 => Except.ok (Json.bool false, rest2)
        | none => Except.error "invalid literal"
      else if c = '-' || isDigitChar c then
        match lexNumber (c :: rest) with
        | Except.error e => Except.error e
        | Except.ok (lx, rest2) => Except.ok (Json.num lx, rest2)
      else Except.error "unexpected character"

/-- Object body just after the opening brace. -/
def parseMembers : Nat → List Char → Except String (Json × List Char)
  | 0, _ => Except.error "recursion limit exceeded"
  | fuel + 1, cs =>
    match skipWs cs with
    | [] => Except.error "unterminated object"
    | c :: rest =>
      if c = rbraceChar then Except.ok (Json.obj [], rest)
      else parseMembersRest fuel [] (c :: rest)

/-- Nonempty member list of an object. -/
def parseMembersRest : Nat → List (String × Json) → List Char → Except String (Json × List Char)
  | 0, _, _ => Except.error "recursion limit exceeded"
  | fuel + 1, acc, cs =>
    match skipWs cs with
    | [] => Except.error "unterminated object"
    | c :: rest =>
      if c = quoteChar then
        match lexStrBody (rest.length + 1) [] rest with
        | Except.error e => Except.error e
        | Except.ok (key, r2) =>
          match skipWs r2 with
          | ':' :: r3 =>
            match parseVal fuel r3 with
            | Except.error e => Except.error e
            | Except.ok (v, r4) =>
              match skipWs r4 with
              | [] => Except.error "unterminated object"
              | d :: r5 =>
                if d = ',' then parseMembersRest fuel (acc ++ [(key, v)]) r5
                else if d = rbraceChar then Except.ok (Json.obj (acc ++ [(key, v)]), r5)
                else Except.error "expected comma or end of object"
          | _ => Except.error "expected colon"
      else Except.error "expected string key"

/-- Array body just after the opening bracket. -/
def parseItems : Nat → List Char → Except String (Json × List Char)
  | 0, _ => Except.error "recursion limit exceeded"
  | fuel + 1, cs =>
    match skipWs cs with
    | [] => Except.error "unterminated array"
    | c :: rest =>
      if c = ']' then Except.ok (Json.arr [], rest)
      else parseItemsRest fuel [] (c :: rest)

/-- Nonempty item list of an array. -/
def parseItemsRest : Nat → List Json → List Char → Except String (Json × List Char)
  | 0, _, _ => Except.error "recursion limit exceeded"
  | fuel + 1, acc, cs =>
    match parseVal fuel cs with
    | Except.error e => Except.error e
    | Except.ok (v, r2) =>
      match skipWs r2 with
      | [] => Except.error "unterminated array"
      | c :: r3 =>
        if c = ',' then parseItemsRest fuel (acc ++ [v]) r3
        else if c = ']' then Except.ok (Json.arr (acc ++ [v]), r3)
        else Except.error "expected comma or end of array"

end

/-- Parse one full line as a JSON document, rejecting trailing content;
models `serde_json` parsing of a complete input. -/
def parseJson (s : String) : Except String Json :=
  match parseVal (2 * s.length + 2) s.data with
  | Except.error e => Except.error e
  | Except.ok (v, rest) =>
    match skipWs rest with
    | [] => Except.ok v
    | _ => Except.error "trailing characters"

/-- JSON-RPC request struct (`JsonRpcRequest` in the source); the embedded
`serde` derive fills `id`/`params` with `none` when the field is absent or
null. -/
structure JsonRpcRequest where
  jsonrpc : String
  id : Option Json
  method : String
  params : Option Json

/-- JSON-RPC error struct (`JsonRpcError` in the source). -/
structure JsonRpcError where
  code : Int
  message : String
  data : Option Json

/-- JSON-RPC response struct (`JsonRpcResponse` in the source). -/
structure JsonRpcResponse where
  jsonrpc : String
  id : Option Json
  result : Option Json
  error : Option JsonRpcError

/-- How many members of the list carry the given key. -/
def countKey : List (String × Json) → String → Nat
  | [], _ => 0
  | (k, _) :: rest, key => (if k = key then 1 else 0) + countKey rest key

/-- Map insertion into an object member list, as `serde_json::Map::insert`:
a later value for an existing key overwrites the earlier one. -/
def insertMember : List (String × Json) → String → Json → List (String × Json)
  | [], key, v => [(key, v)]
  | (k0, v0) :: rest, key, v =>
    if k0 = key then (k0, v) :: rest else (k0, v0) :: insertMember rest key v

mutual

/-- Turn a raw parse tree into the `serde_json::Value` a captured field
holds: object members are inserted into a map one by one, so a duplicated
key keeps its last occurrence. -/
def collapseJson : Json → Json
  | Json.obj ms => Json.obj (collapseMembers ms [])
  | Json.arr xs => Json.arr (collapseItems xs)
  | Json.null => Json.null
  | Json.bool b => Json.bool b
  | Json.num lx => Json.num lx
  | Json.str s => Json.str s

/-- Collapse each item of an array. -/
def collapseItems : List Json → List Json
  | [] => []
  | x :: xs => collapseJson x :: collapseItems xs

/-- Insert raw members into an accumulated map, left to right. -/
def collapseMembers : List (String × Json) → List (String × Json) → List (String × Json)
  | [], acc => acc
  | (k, v) :: rest, acc => collapseMembers rest (insertMember acc k (collapseJson v))

end

/-- Optional `Option<Value>` struct field of the derived `Deserialize`:
absent or JSON null maps to `none`; any other value is captured as a
`serde_json::Value`. -/
def optValue : Option Json → Option Json
  | none => none
  | some Json.null => none
  | some v => some (collapseJson v)

/-- The derived `Deserialize` for `JsonRpcRequest`: requires an object;
each of the four declared fields may appear at most once (`serde_derive`
rejects a repeated struct field with a duplicate-field error); `jsonrpc`
and `method` must hold strings — the value of `jsonrpc` is not otherwise
constrained; `id` and `params` are optional; unknown fields are ignored. -/
def requestFromJson (j : Json) : Except String JsonRpcRequest :=
  match j with
  | Json.obj members =>
    if 2 ≤ countKey members "jsonrpc" then Except.error "duplicate field jsonrpc"
    else if 2 ≤ countKey members "id" then Except.error "duplicate field id"
    else if 2 ≤ countKey members "method" then Except.error "duplicate field method"
    else if 2 ≤ countKey members "params" then Except.error "duplicate field params"
    else
      match lookupMember members "jsonrpc" with
      | none => Except.error "missing field jsonrpc"
      | some jv =>
        match jv.asStr with
        | none => Except.error "invalid type for field jsonrpc"
        | some tag =>
          match lookupMember members "method" with
          | none => Except.error "missing field method"
          | some mv =>
            match mv.asStr with
            | none => Except.error "invalid type for field method"
            | some m =>
              Except.ok { jsonrpc := tag, id := optValue (lookupMember members "id"),
                          method := m, params := optValue (lookupMember members "params") }
  | _ => Except.error "invalid type: expected an object"

/-- Decode one input line as a `JsonRpcRequest`
(`serde_json::from_str::<JsonRpcRequest>` in `run`). -/
def decode (line : String) : Except String JsonRpcRequest :=
  match parseJson line with
  | Except.error e => Except.error e
  | Except.ok j => requestFromJson j

/-- Hexadecimal digit character for string escaping. -/
def hexDigitChar (n : Nat) : Char :=
  if n < 10 then Char.ofNat ('0'.toNat + n) else Char.ofNat ('a'.toNat + n - 10)

/-- Escape one character of a JSON string for output. -/
def escChar (c : Char) : String :=
  if c = quoteChar then String.mk [backslashChar, quoteChar]
  else if c = backslashChar then String.mk [backslashChar, backslashChar]
  else if c = '\n' then "\\n"
  else if c = '\r' then "\\r"
  else if c = '\t' then "\\t"
  else if c.toNat = 8 then "\\b"
  else if c.toNat = 12 then "\\f"
  else if c.toNat < 32 then
    "\\u00" ++ String.mk [hexDigitChar (c.toNat / 16), hexDigitChar (c.toNat % 16)]
  else String.singleton c

/-- Serialize a string with quotes and escapes. -/
def renderString (s : String) : String :=
  "\"" ++ String.join (s.data.map escChar) ++ "\""

mutual

/-- Compact serialization of a JSON document (`serde_json::to_string`). -/
def Json.render : Json → String
  | Json.null => "null"
  | Json.bool true => "true"
  | Json.bool false => "false"
  | Json.num lx => lx
  | Json.str s => renderString s
  | Json.arr items => "[" ++ renderItems items ++ "]"
  | Json.obj members => String.mk [lbraceChar] ++ renderMembers members ++ String.mk [rbraceChar]

/-- Comma-separated serialization of array items. -/
def renderItems : List Json → String
  | [] => ""
  | [x] => Json.render x
  | x :: y :: xs => Json.render x ++ "," ++ renderItems (y :: xs)

/-- Comma-separated serialization of object members. -/
def renderMembers : List (String × Json) → String
  | [] => ""
  | [(k, v)] => renderString k ++ ":" ++ Json.render v
  | (k, v) :: m :: ms => renderString k ++ ":" ++ Json.render v ++ "," ++ renderMembers (m :: ms)

end

/-- Indentation for pretty serialization. -/
def indentStr (n : Nat) : String :=
  String.mk (List.replicate n ' ')

mutual

/-- Pretty serialization of a JSON document with two-space indentation
(`serde_json::to_string_pretty`). -/
def renderPretty : Nat → Json → String
  | _, Json.null => "null"
  | _, Json.bool true => "true"
  | _, Json.bool false => "false"
  | _, Json.num lx => lx
  | _, Json.str s => renderString s
  | _, Json.arr [] => "[]"
  | ind, Json.arr (x :: xs) =>
    "[\n" ++ renderPrettyItems (ind + 2) (x :: xs) ++ "\n" ++ indentStr ind ++ "]"
  | _, Json.obj [] => String.mk [lbraceChar, rbraceChar]
  | ind, Json.obj (m :: ms) =>
    String.mk [lbraceChar] ++ "\n" ++ renderPrettyMembers (ind + 2) (m :: ms) ++ "\n"
      ++ indentStr ind ++ String.mk [rbraceChar]

/-- Pretty serialization of array items, one per line. -/
def renderPrettyItems : Nat → List Json → String
  | _, [] => ""
  | ind, [x] => indentStr ind ++ renderPretty ind x
  | ind, x :: y :: xs =>
    indentStr ind ++ renderPretty ind x ++ ",\n" ++ renderPrettyItems ind (y :: xs)

/-- Pretty serialization of object members, one per line. -/
def renderPrettyMembers : Nat → List (String × Json) → String
  | _, [] => ""
  | ind, [(k, v)] => indentStr ind ++ renderString k ++ ": " ++ renderPretty ind v
  | ind, (k, v) :: m :: ms =>
    indentStr ind ++ renderString k ++ ": " ++ renderPretty ind v ++ ",\n"
      ++ renderPrettyMembers ind (m :: ms)

end

/-- The derived `Serialize` for `JsonRpcError`: `data` is skipped when
`none`. -/
def encodeError (e : JsonRpcError) : Json :=
  Json.obj ([("code", Json.num (toString e.code)), ("message", Json.str e.message)]
    ++ (match e.data with | some d => [("data", d)] | none => []))

/-- The derived `Serialize` for `JsonRpcResponse`: `id` always serialized
(null when absent); `result` and `error` skipped when `none`. -/
def encodeResponse (r : JsonRpcResponse) : Json :=
  Json.obj ([("jsonrpc", Json.str r.jsonrpc), ("id", r.id.getD Json.null)]
    ++ (match r.result with | some v => [("result", v)] | none => [])
    ++ (match r.error with | some e => [("error", encodeError e)] | none => []))

/-- MCP protocol version constant (`MCP_VERSION`). -/
def MCP_VERSION : String := "2024-11-05"

/-- Tool descriptor struct (`Tool` in the source); `input_schema` is
serialized under the key `inputSchema`. -/
structure Tool where
  name : String
  description : String
  input_schema : Json

/-- The derived `Serialize` for `Tool` (with the `inputSchema` rename). -/
def encodeTool (t : Tool) : Json :=
  Json.obj [("name", Json.str t.name), ("description", Json.str t.description),
            ("inputSchema", t.input_schema)]

/-- The `hello_world` tool descriptor registered by `list_tools`. -/
def helloWorldTool : Tool :=
  { name := "hello_world",
    description := "Returns a hello world message with the provided name",
    input_schema := Json.obj [
      ("type", Json.str "object"),
      ("properties", Json.obj [
        ("name", Json.obj [("type", Json.str "string"),
                           ("description", Json.str "Name to greet")])]),
      ("required", Json.arr [Json.str "name"])] }

/-- The `check_policy` tool descriptor registered by `list_tools`. -/
def checkPolicyTool : Tool :=
  { name := "check_policy",
    description := "AI-powered natural language policy checker. Analyzes access requests against policies written in natural language and returns PERMIT/DENY/INDETERMINATE decisions.",
    input_schema := Json.obj [
      ("type", Json.str "object"),
      ("properties", Json.obj [
        ("policy", Json.obj [("type", Json.str "string"),
                             ("description", Json.str "Natural language policy to evaluate")]),
        ("agent", Json.obj [("type", Json.str "string"),
                            ("description", Json.str "Agent/user requesting access")]),
        ("action", Json.obj [("type", Json.str "string"),
                             ("description", Json.str "Action being requested (read, write, delete, execute, etc.)")]),
        ("resource", Json.obj [("type", Json.str "string"),
                               ("description", Json.str "Resource being accessed (file path, API endpoint, etc.)")]),
        ("context", Json.obj [("type", Json.str "object"),
                              ("description", Json.str "Additional context information (time, location, purpose, etc.)"),
                              ("additionalProperties", Json.bool true)])]),
      ("required", Json.arr [Json.str "policy", Json.str "action", Json.str "resource"])] }

/-- The value returned by `list_tools`: the registry snapshot
`json!(\x7b "tools": tools \x7d)` with the two descriptors in registration
order. -/
def toolsListJson : Json :=
  Json.obj [("tools", Json.arr [encodeTool helloWorldTool, encodeTool checkPolicyTool])]

/-- The server struct (`AegisMcpServer`). -/
structure AegisMcpServer where
  name : String
  version : String

/-- `AegisMcpServer::new`. -/
def AegisMcpServer.new : AegisMcpServer :=
  { name := "aegis-mcp-server", version := "0.1.0" }

/-- Models `anyhow`'s `.context(msg)` on an `Option`: `none` becomes an
error carrying the message. -/
def contextErr (o : Option α) (msg : String) : Except String α :=
  match o with
  | some a => Except.ok a
  | none => Except.error msg

/-- Models the `initialize` handler (`AegisMcpServer::initialize`): returns
protocol version, server identity and the declared capability set; the
params are only logged. -/
def AegisMcpServer.handle_init (self : AegisMcpServer) (_params : Option Json) :
    Except String Json :=
  Except.ok (Json.obj [
    ("protocolVersion", Json.str MCP_VERSION),
    ("serverInfo", Json.obj [("name", Json.str self.name),
                             ("version", Json.str self.version)]),
    ("capabilities", Json.obj [("tools", Json.obj [])])])

/-- `AegisMcpServer::list_tools`. -/
def AegisMcpServer.list_tools (_self : AegisMcpServer) : Except String Json :=
  Except.ok toolsListJson

/-- `AegisMcpServer::handle_hello_world`: the `name` argument falls back to
`"World"` when absent or not a string. -/
def AegisMcpServer.handle_hello_world (_self : AegisMcpServer) (args : Json) :
    Except String Json :=
  let name := ((Json.index args "name").asStr).getD "World"
  Except.ok (Json.obj [("content", Json.arr [Json.obj [
    ("type", Json.str "text"),
    ("text", Json.str ("Hello, " ++ name ++ "! 🛡️ Welcome to Aegis MCP Server (Rust Edition)"))]])])

/-- The prompt text built by `handle_check_policy` for the AI judge. -/
def checkPolicyPrompt (policy agent action resource : String) (context : Option Json) :
    String :=
  let base := "# Policy Evaluation Request\n\nPlease analyze this access request against the given policy and return a JSON decision.\n\n## Policy:\n```\n"
    ++ policy
    ++ "\n```\n\n## Access Request:\n- **Agent**: " ++ agent
    ++ "\n- **Action**: " ++ action
    ++ "\n- **Resource**: `" ++ resource ++ "`\n"
  let withCtx :=
    match context with
    | some ctx => base ++ "\n## Additional Context:\n```json\n" ++ renderPretty 0 ctx ++ "\n```\n"
    | none => base
  withCtx ++ "\n## Required Response Format:\nReturn a JSON object with the following structure:\n```json\n\x7b\n  \"decision\": \"PERMIT\" | \"DENY\" | \"INDETERMINATE\",\n  \"reason\": \"Detailed explanation of the decision\",\n  \"confidence\": 0.0-1.0,\n  \"constraints\": [\"optional array of constraints to apply\"],\n  \"obligations\": [\"optional array of obligations to execute\"]\n\x7d\n```\n\nPlease evaluate the request carefully and return your decision."

/-- `AegisMcpServer::handle_check_policy`: `policy`, `action` and
`resource` are required string arguments; `agent` falls back to
`"unknown-agent"`; `context` is optional and included in the prompt when
present. -/
def AegisMcpServer.handle_check_policy (_self : AegisMcpServer) (args : Json) :
    Except String Json := do
  let policy ← contextErr (Json.index args "policy").asStr "Missing policy"
  let agent := ((Json.index args "agent").asStr).getD "unknown-agent"
  let action ← contextErr (Json.index args "action").asStr "Missing action"
  let resource ← contextErr (Json.index args "resource").asStr "Missing resource"
  let context := Json.get args "context"
  Except.ok (Json.obj [("content", Json.arr [Json.obj [
    ("type", Json.str "text"),
    ("text", Json.str (checkPolicyPrompt policy agent action resource context))]])])

/-- `AegisMcpServer::call_tool`: params must be present and carry a string
`name`; the `arguments` value is extracted by indexing (so it may be
`Null`); unknown tool names fail. -/
def AegisMcpServer.call_tool (self : AegisMcpServer) (params : Option Json) :
    Except String Json := do
  let params ← contextErr params "Missing parameters for tool call"
  let tool_name ← contextErr (Json.index params "name").asStr "Missing tool name"
  let arguments := Json.index params "arguments"
  match tool_name with
  | "hello_world" => self.handle_hello_world arguments
  | "check_policy" => self.handle_check_policy arguments
  | t => Except.error ("Unknown tool: " ++ t)

/-- `AegisMcpServer::handle_request`: `notifications/initialized` returns
an all-empty response; recognized methods run their handler; any other
method yields a `Method not found` error; handler errors become an error
response with code `-32603`. -/
def AegisMcpServer.handle_request (self : AegisMcpServer) (request : JsonRpcRequest) :
    JsonRpcResponse :=
  let id := request.id
  if request.method = "notifications/initialized" then
    { jsonrpc := "2.0", id := none, result := none, error := none }
  else
    let result : Except String Json :=
      if request.method = "initialize" then self.handle_init request.params
      else if request.method = "tools/list" then self.list_tools
      else if request.method = "tools/call" then self.call_tool request.params
      else Except.error ("Method not found: " ++ request.method)
    match result with
    | Except.ok r =>
      { jsonrpc := "2.0", id := id, result := some r, error := none }
    | Except.error err =>
      { jsonrpc := "2.0", id := id, result := none,
        error := some { code := -32603, message := err, data := none } }

/-- A line whose `line.trim().is_empty()` test is true, i.e. every
character is whitespace. -/
def isBlankLine (line : String) : Bool :=
  line.data.all Char.isWhitespace

/-- One iteration of the session loop in `AegisMcpServer::run`: skip blank
lines, skip lines that fail to decode, dispatch, and emit the response only
when it carries an id, a result or an error. -/
def AegisMcpServer.process_line (self : AegisMcpServer) (line : String) :
    Option JsonRpcResponse :=
  if isBlankLine line then none
  else
    match decode line with
    | Except.error _ => none
    | Except.ok request =>
      let response := self.handle_request request
      if response.id.isSome || response.result.isSome || response.error.isSome then
        some response
      else none

/-- The session loop of `AegisMcpServer::run` over a finite input stream:
the list of emitted responses, in order. -/
def AegisMcpServer.run (self : AegisMcpServer) (lines : List String) :
    List JsonRpcResponse :=
  lines.filterMap self.process_line

/-- A whole session of the server built by `main`. -/
def runServer (lines : List String) : List JsonRpcResponse :=
  AegisMcpServer.new.run lines

/-- The emitted reply lines of a session, as serialized text. -/
def runServerLines (lines : List String) : List String :=
  (runServer lines).map (fun r => Json.render (encodeResponse r))

/-! Helper lemmas about the embedding. -/

@[simp] theorem except_bind_ok (a : α) (f : α → Except ε β) :
    (Except.ok a : Except ε α) >>= f = f a := rfl

@[simp] theorem except_bind_err (e : ε) (f : α → Except ε β) :
    (Except.error e : Except ε α) >>= f = Except.error e := rfl

theorem skipWs_eq_nil (cs : List Char) (h : ∀ c ∈ cs, isJsonWs c = true) :
    skipWs cs = [] := by
  induction cs with
  | nil => rfl
  | cons c cs ih =>
    have hc : isJsonWs c = true := h c (List.mem_cons_self c cs)
    simp only [skipWs, hc, if_pos]
    exact ih (fun d hd => h d (List.mem_cons_of_mem c hd))

theorem parseVal_ws (fuel : Nat) (cs : List Char) (h : skipWs cs = []) :
    ∃ e, parseVal fuel cs = Except.error e := by
  cases fuel with
  | zero => exact ⟨"recursion limit exceeded", rfl⟩
  | succ f => exact ⟨"unexpected end of input", by simp [parseVal, h]⟩

theorem decode_blank (line : String) (h : isBlankLine line = true) :
    ∃ e, decode line = Except.error e := by
  have hall : ∀ c ∈ line.data, isJsonWs c = true := by
    intro c hc
    have hw : c.isWhitespace = true := List.all_eq_true.mp h c hc
    simp only [Char.isWhitespace, Bool.or_eq_true, decide_eq_true_eq] at hw
    simp only [isJsonWs, Bool.or_eq_true, decide_eq_true_eq]
    tauto
  have hskip : skipWs line.data = [] := skipWs_eq_nil line.data hall
  obtain ⟨e, he⟩ := parseVal_ws (2 * line.length + 2) line.data hskip
  exact ⟨e, by simp [decode, parseJson, he]⟩

theorem isBlankLine_false_of_decode_ok (line : String) (req : JsonRpcRequest)
    (hd : decode line = Except.ok req) : isBlankLine line = false := by
  cases hb : isBlankLine line
  · rfl
  · obtain ⟨e, he⟩ := decode_blank line hb
    rw [he] at hd
    exact absurd hd (by simp)

theorem process_line_decode_ok (self : AegisMcpServer) (line : String)
    (req : JsonRpcRequest) (hd : decode line = Except.ok req) :
    self.process_line line =
      (if (self.handle_request req).id.isSome || (self.handle_request req).result.isSome
          || (self.handle_request req).error.isSome
       then some (self.handle_request req) else none) := by
  have hb := isBlankLine_false_of_decode_ok line req hd
  simp [AegisMcpServer.process_line, hb, hd]

theorem handle_request_notif (self : AegisMcpServer) (req : JsonRpcRequest)
    (hm : req.method = "notifications/initialized") :
    self.handle_request req = { jsonrpc := "2.0", id := none, result := none, error := none } := by
  simp [AegisMcpServer.handle_request, hm]

theorem handle_request_not_notif (self : AegisMcpServer) (req : JsonRpcRequest)
    (hm : req.method ≠ "notifications/initialized") :
    (self.handle_request req).id = req.id ∧
    (self.handle_request req).result.isSome = !(self.handle_request req).error.isSome := by
  simp only [AegisMcpServer.handle_request]
  rw [if_neg hm]
  constructor
  · split <;> rfl
  · split <;> rfl

theorem runServer_cons (line : String) (rest : List String) :
    runServer (line :: rest) =
      (match AegisMcpServer.new.process_line line with
       | some r => r :: runServer rest
       | none => runServer rest) := by
  cases h : AegisMcpServer.new.process_line line <;>
    simp [runServer, AegisMcpServer.run, List.filterMap_cons, h]

theorem runServer_nil : runServer [] = [] := rfl

theorem encodeResponse_keys (r : JsonRpcResponse) :
    (encodeResponse r).hasKey "result" = r.result.isSome ∧
    (encodeResponse r).hasKey "error" = r.error.isSome := by
  obtain ⟨js, id, res, err⟩ := r
  cases res <;> cases err <;> exact ⟨rfl, rfl⟩

/-! Claim C1: replies for identifier-less messages. -/

/-- A notification-shaped line (no id) with method `initialize`. -/
def lineNoIdInit : String := "\x7b\"jsonrpc\":\"2.0\",\"method\":\"initialize\"\x7d"

/-- Claim C1 counterexample: the line `(jsonrpc 2.0, method initialize)`
carries no identifier, yet the loop emits one reply line for it — the
claim says a message with no identifier always yields zero reply lines. -/
theorem notification_reply_cex :
    decode lineNoIdInit = Except.ok { jsonrpc := "2.0", id := none, method := "initialize", params := none } ∧
    (runServer [lineNoIdInit]).length = 1 := ⟨rfl, rfl⟩

/-- Claim C1 (amended): a decoded message with no identifier produces zero
reply lines exactly when its method is `notifications/initialized`; for
every other method, recognized or unrecognized, the loop emits one reply
line. -/
theorem notification_reply (line : String) (req : JsonRpcRequest)
    (hd : decode line = Except.ok req) (_hid : req.id = none) :
    (req.method = "notifications/initialized" → runServer [line] = []) ∧
    (req.method ≠ "notifications/initialized" → (runServer [line]).length = 1) := by
  constructor
  · intro hm
    have h1 := process_line_decode_ok AegisMcpServer.new line req hd
    rw [handle_request_notif AegisMcpServer.new req hm] at h1
    simp at h1
    simp [runServer_cons, h1, runServer_nil]
  · intro hm
    obtain ⟨hidp, hres⟩ := handle_request_not_notif AegisMcpServer.new req hm
    have h1 := process_line_decode_ok AegisMcpServer.new line req hd
    have hcond : ((AegisMcpServer.new.handle_request req).id.isSome
        || (AegisMcpServer.new.handle_request req).result.isSome
        || (AegisMcpServer.new.handle_request req).error.isSome) = true := by
      cases he : (AegisMcpServer.new.handle_request req).error.isSome <;>
        simp [hres, he]
    rw [hcond] at h1
    simp at h1
    simp [runServer_cons, h1, runServer_nil]

/-- Witness for C1 at a concrete input: an identifier-less line with the
unrecognized method `ping` gets one reply line. -/
theorem notification_reply_wit :
    (runServer ["\x7b\"jsonrpc\":\"2.0\",\"method\":\"ping\"\x7d"]).length = 1 :=
  (notification_reply "\x7b\"jsonrpc\":\"2.0\",\"method\":\"ping\"\x7d"
    { jsonrpc := "2.0", id := none, method := "ping", params := none }
    rfl rfl).2 (by decide)

/-! Claim C2: one reply per identified request. -/

/-- A request-shaped line (id present) with method
`notifications/initialized`. -/
def lineIdNotifInit : String :=
  "\x7b\"jsonrpc\":\"2.0\",\"id\":1,\"method\":\"notifications/initialized\"\x7d"

/-- Claim C2 counterexample: a valid request carrying identifier `1` with
method `notifications/initialized` receives no reply line at all — the
claim says every valid request with an identifier gets exactly one reply,
including this method. -/
theorem request_one_reply_cex :
    decode lineIdNotifInit = Except.ok { jsonrpc := "2.0", id := some (Json.num "1"), method := "notifications/initialized", params := none } ∧
    runServer [lineIdNotifInit] = [] := ⟨rfl, rfl⟩

/-- Claim C2 (amended): for every valid decoded request that carries an
identifier and whose method is not `notifications/initialized`, the loop
emits exactly one reply carrying that identifier unchanged. -/
theorem request_one_reply (line : String) (req : JsonRpcRequest) (v : Json)
    (hd : decode line = Except.ok req) (hid : req.id = some v)
    (hm : req.method ≠ "notifications/initialized") :
    (runServer [line]).map JsonRpcResponse.id = [some v] := by
  obtain ⟨hidp, _hres⟩ := handle_request_not_notif AegisMcpServer.new req hm
  have h1 := process_line_decode_ok AegisMcpServer.new line req hd
  have hcond : ((AegisMcpServer.new.handle_request req).id.isSome
      || (AegisMcpServer.new.handle_request req).result.isSome
      || (AegisMcpServer.new.handle_request req).error.isSome) = true := by
    simp [hidp, hid]
  rw [hcond] at h1
  simp at h1
  simp [runServer_cons, h1, runServer_nil, hidp, hid]

/-- Witness for C2 at a concrete input: a `tools/list` request with
identifier `9` gets exactly one reply echoing `9`. -/
theorem request_one_reply_wit :
    (runServer ["\x7b\"jsonrpc\":\"2.0\",\"id\":9,\"method\":\"tools/list\"\x7d"]).map
      JsonRpcResponse.id = [some (Json.num "9")] :=
  request_one_reply "\x7b\"jsonrpc\":\"2.0\",\"id\":9,\"method\":\"tools/list\"\x7d"
    { jsonrpc := "2.0", id := some (Json.num "9"), method := "tools/list", params := none }
    (Json.num "9") rfl rfl (by decide)

/-! Claim C7: `notifications/initialized` is always silent. -/

/-- Claim C7: a message with method `notifications/initialized` produces no
output line, whether or not an identifier is present. -/
theorem notifications_initialized_silent (line : String) (req : JsonRpcRequest)
    (hd : decode line = Except.ok req) (hm : req.method = "notifications/initialized") :
    runServer [line] = [] := by
  have h1 := process_line_decode_ok AegisMcpServer.new line req hd
  rw [handle_request_notif AegisMcpServer.new req hm] at h1
  simp at h1
  simp [runServer_cons, h1, runServer_nil]

/-- Witness for C7 at a concrete input: `notifications/initialized` with
identifier `5` yields no output line. -/
theorem notifications_initialized_silent_wit :
    runServer ["\x7b\"jsonrpc\":\"2.0\",\"id\":5,\"method\":\"notifications/initialized\"\x7d"]
      = [] :=
  notifications_initialized_silent
    "\x7b\"jsonrpc\":\"2.0\",\"id\":5,\"method\":\"notifications/initialized\"\x7d"
    { jsonrpc := "2.0", id := some (Json.num "5"), method := "notifications/initialized", params := none }
    rfl rfl

/-! Claim C3: what decode accepts and rejects. -/

/-- Claim C4 counterexample: calling `hello_world` with empty arguments —
omitting the `name` field its schema declares required — succeeds with the
default greeting instead of failing with a descriptive error. -/
theorem required_arg_default_cex :
    AegisMcpServer.new.call_tool (some (Json.obj [("name", Json.str "hello_world"), ("arguments", Json.obj [])]))
      = Except.ok (Json.obj [("content", Json.arr [Json.obj [("type", Json.str "text"), ("text", Json.str "Hello, World! 🛡️ Welcome to Aegis MCP Server (Rust Edition)")]])]) := rfl

/-- Claim C4 (amended): `check_policy` fails with a descriptive error
naming the first missing required field (`policy`, `action`, `resource`, in
that order) and defaults the optional `agent` to `unknown-agent`; but
`hello_world`, whose schema also declares `name` required, never fails —
a missing or non-string `name` falls back to `World`. -/
theorem tool_arg_handling (args : Json) :
    AegisMcpServer.new.handle_hello_world args =
      Except.ok (Json.obj [("content", Json.arr [Json.obj [("type", Json.str "text"),
        ("text", Json.str ("Hello, " ++ (((Json.index args "name").asStr).getD "World")
          ++ "! 🛡️ Welcome to Aegis MCP Server (Rust Edition)"))]])]) ∧
    AegisMcpServer.new.handle_check_policy args =
      (match (Json.index args "policy").asStr with
       | none => Except.error "Missing policy"
       | some policy =>
         match (Json.index args "action").asStr with
         | none => Except.error "Missing action"
         | some action =>
           match (Json.index args "resource").asStr with
           | none => Except.error "Missing resource"
           | some resource =>
             Except.ok (Json.obj [("content", Json.arr [Json.obj [("type", Json.str "text"),
               ("text", Json.str (checkPolicyPrompt policy
                 (((Json.index args "agent").asStr).getD "unknown-agent")
                 action resource (Json.get args "context")))]])])) := by
  constructor
  · rfl
  · cases hp : (Json.index args "policy").asStr with
    | none => simp [AegisMcpServer.handle_check_policy, contextErr, hp]
    | some policy =>
      cases ha : (Json.index args "action").asStr with
      | none => simp [AegisMcpServer.handle_check_policy, contextErr, hp, ha]
      | some action =>
        cases hre : (Json.index args "resource").asStr with
        | none => simp [AegisMcpServer.handle_check_policy, contextErr, hp, ha, hre]
        | some resource => simp [AegisMcpServer.handle_check_policy, contextErr, hp, ha, hre]

/-! Claim C5: every emitted reply carries exactly one of result/error. -/

/-- Claim C5: every reply the loop emits, decoded as a generic JSON
document, carries exactly one of the `result` and `error` fields — never
both, never neither. -/
theorem reply_exclusive (lines : List String) (r : JsonRpcResponse)
    (hr : r ∈ runServer lines) :
    (encodeResponse r).hasKey "result" ≠ (encodeResponse r).hasKey "error" := by
  simp only [runServer, AegisMcpServer.run] at hr
  obtain ⟨l, _hl, hpl⟩ := List.mem_filterMap.mp hr
  by_cases hb : isBlankLine l = true
  · simp [AegisMcpServer.process_line, hb] at hpl
  · rw [Bool.not_eq_true] at hb
    cases hdl : decode l with
    | error e => simp [AegisMcpServer.process_line, hb, hdl] at hpl
    | ok req =>
      rw [process_line_decode_ok AegisMcpServer.new l req hdl] at hpl
      by_cases hm : req.method = "notifications/initialized"
      · rw [handle_request_notif AegisMcpServer.new req hm] at hpl
        simp at hpl
      · obtain ⟨_hidp, hres⟩ := handle_request_not_notif AegisMcpServer.new req hm
        by_cases hc : ((AegisMcpServer.new.handle_request req).id.isSome
            || (AegisMcpServer.new.handle_request req).result.isSome
            || (AegisMcpServer.new.handle_request req).error.isSome) = true
        · rw [if_pos hc] at hpl
          have hreq : AegisMcpServer.new.handle_request req = r := by
            exact Option.some.inj hpl
          subst hreq
          obtain ⟨hk1, hk2⟩ := encodeResponse_keys (AegisMcpServer.new.handle_request req)
          rw [hk1, hk2, hres]
          cases hE : (AegisMcpServer.new.handle_request req).error.isSome <;> simp [hE]
        · rw [if_neg hc] at hpl
          exact absurd hpl (by simp)

/-- The line and the reply used as C5's witness input. -/
def lineW5 : String := "\x7b\"jsonrpc\":\"2.0\",\"id\":1,\"method\":\"initialize\"\x7d"

/-- The reply the loop emits for `lineW5`. -/
def respW5 : JsonRpcResponse :=
  { jsonrpc := "2.0", id := some (Json.num "1"),
    result := some (Json.obj [("protocolVersion", Json.str "2024-11-05"),
      ("serverInfo", Json.obj [("name", Json.str "aegis-mcp-server"), ("version", Json.str "0.1.0")]),
      ("capabilities", Json.obj [("tools", Json.obj [])])]),
    error := none }

/-- Witness for C5 at a concrete input: the reply to an `initialize`
request carries a `result` field and no `error` field. -/
theorem reply_exclusive_wit :
    (encodeResponse respW5).hasKey "result" ≠ (encodeResponse respW5).hasKey "error" :=
  reply_exclusive [lineW5] respW5 (by
    have h : runServer [lineW5] = [respW5] := rfl
    rw [h]
    exact List.mem_singleton.mpr rfl)

/-! Claim C6: the unknown-method error reply and its code. -/

/-- Modelled from the spec: the JSON-RPC convention's reserved numeric code
for the "method not found" error taxonomy. -/
def specJsonRpcMethodNotFoundCode : Int := -32601

/-- Claim C6 counterexample: an unknown method on a request yields an error
reply whose code is `-32603` (the generic internal-error code), not the
JSON-RPC "method not found" code `-32601` the claim requires for that
taxonomy. -/
theorem method_not_found_code_cex :
    (AegisMcpServer.new.handle_request { jsonrpc := "2.0", id := some (Json.num "1"), method := "frobnicate", params := none }).error
      = some { code := -32603, message := "Method not found: frobnicate", data := none } ∧
    ¬((-32603 : Int) = specJsonRpcMethodNotFoundCode) := ⟨rfl, by decide⟩

/-- Claim C6 (amended): a request-shaped message whose method is none of
the recognized control methods gets an error reply echoing the identifier,
with message `Method not found: <method>` — but its numeric code is the
single generic code `-32603` the server uses for every error. -/
theorem unknown_method_reply (req : JsonRpcRequest) (v : Json)
    (h1 : req.method ≠ "initialize") (h2 : req.method ≠ "tools/list")
    (h3 : req.method ≠ "tools/call") (h4 : req.method ≠ "notifications/initialized")
    (hid : req.id = some v) :
    AegisMcpServer.new.handle_request req
      = { jsonrpc := "2.0", id := some v, result := none,
          error := some { code := -32603, message := "Method not found: " ++ req.method, data := none } } := by
  simp [AegisMcpServer.handle_request, h1, h2, h3, h4, hid]

/-- Witness for C6 at a concrete input: method `aegis/scan` with
identifier `2`. -/
theorem unknown_method_reply_wit :
    AegisMcpServer.new.handle_request { jsonrpc := "2.0", id := some (Json.num "2"), method := "aegis/scan", params := none }
      = { jsonrpc := "2.0", id := some (Json.num "2"), result := none,
          error := some { code := -32603, message := "Method not found: aegis/scan", data := none } } :=
  unknown_method_reply
    { jsonrpc := "2.0", id := some (Json.num "2"), method := "aegis/scan", params := none }
    (Json.num "2") (by decide) (by decide) (by decide) (by decide) rfl

/-! Claim C8: decode failures do not terminate the session. -/

/-- Whether an `Except` is a success. -/
def exceptIsOk : Except ε α → Bool
  | Except.ok _ => true
  | Except.error _ => false

/-- The undecodable line used in C8. -/
def lineBad : String := "not-json"

/-- A `notifications/initialized` request line with identifier `7`. -/
def lineIdNotif7 : String := "\x7b\"jsonrpc\":\"2.0\",\"id\":7,\"method\":\"notifications/initialized\"\x7d"

/-- Claim C8 counterexample: an undecodable line followed by a valid
request with identifier `7` whose method is `notifications/initialized`
yields zero reply lines, not the exactly-one reply the claim states for
every valid identifier-carrying request. -/
theorem malformed_resilience_cex :
    exceptIsOk (decode lineBad) = false ∧
    decode lineIdNotif7 = Except.ok { jsonrpc := "2.0", id := some (Json.num "7"), method := "notifications/initialized", params := none } ∧
    runServer [lineBad, lineIdNotif7] = [] := ⟨rfl, rfl, rfl⟩

/-- Claim C8 (amended): an undecodable line followed by a valid request
carrying an identifier, whose method is not `notifications/initialized`,
yields exactly one reply — the reply to the valid request, echoing its
identifier; the decode failure does not terminate the session. -/
theorem malformed_resilience (l1 l2 : String) (req : JsonRpcRequest) (v : Json)
    (h1 : exceptIsOk (decode l1) = false)
    (hd : decode l2 = Except.ok req) (hid : req.id = some v)
    (hm : req.method ≠ "notifications/initialized") :
    runServer [l1, l2] = [AegisMcpServer.new.handle_request req] ∧
    (AegisMcpServer.new.handle_request req).id = some v := by
  have hskip : AegisMcpServer.new.process_line l1 = none := by
    by_cases hb : isBlankLine l1 = true
    · simp [AegisMcpServer.process_line, hb]
    · rw [Bool.not_eq_true] at hb
      cases hdl : decode l1 with
      | error e => simp [AegisMcpServer.process_line, hb, hdl]
      | ok r => rw [hdl] at h1; simp [exceptIsOk] at h1
  obtain ⟨hidp, _hres⟩ := handle_request_not_notif AegisMcpServer.new req hm
  have h2 := process_line_decode_ok AegisMcpServer.new l2 req hd
  have hcond : ((AegisMcpServer.new.handle_request req).id.isSome
      || (AegisMcpServer.new.handle_request req).result.isSome
      || (AegisMcpServer.new.handle_request req).error.isSome) = true := by
    simp [hidp, hid]
  rw [hcond] at h2
  simp at h2
  refine ⟨?_, by rw [hidp, hid]⟩
  simp [runServer_cons, hskip, h2, runServer_nil]

/-- A well-formed `tools/call` line invoking `hello_world` for `Ada`. -/
def lineHelloAda : String :=
  "\x7b\"jsonrpc\":\"2.0\",\"id\":4,\"method\":\"tools/call\",\"params\":\x7b\"name\":\"hello_world\",\"arguments\":\x7b\"name\":\"Ada\"\x7d\x7d\x7d"

/-- The decoded form of `lineHelloAda`. -/
def reqHelloAda : JsonRpcRequest :=
  { jsonrpc := "2.0", id := some (Json.num "4"), method := "tools/call",
    params := some (Json.obj [("name", Json.str "hello_world"),
      ("arguments", Json.obj [("name", Json.str "Ada")])]) }

/-- Witness for C8 at a concrete input: `not-json` followed by a
`tools/call` request with identifier `4` yields exactly the one reply to
that request. -/
theorem malformed_resilience_wit :
    runServer [lineBad, lineHelloAda] = [AegisMcpServer.new.handle_request reqHelloAda] ∧
    (AegisMcpServer.new.handle_request reqHelloAda).id = some (Json.num "4") :=
  malformed_resilience lineBad lineHelloAda reqHelloAda (Json.num "4") rfl rfl rfl (by decide)

/-! Claim C9: tools/list is stable and ordered. -/

theorem handle_request_tools_list (self : AegisMcpServer) (req : JsonRpcRequest)
    (hm : req.method = "tools/list") :
    self.handle_request req = { jsonrpc := "2.0", id := req.id, result := some toolsListJson, error := none } := by
  simp only [AegisMcpServer.handle_request, hm]
  rfl

/-- Claim C9: two consecutive `tools/list` requests get identical replies,
both carrying the registry snapshot whose `tools` array lists the
descriptors in registration order — `hello_world` first, then
`check_policy` — each descriptor carrying `name`, `description` and
`inputSchema`. -/
theorem tools_list_stable (l1 l2 : String) (req1 req2 : JsonRpcRequest)
    (hd1 : decode l1 = Except.ok req1) (hm1 : req1.method = "tools/list")
    (hd2 : decode l2 = Except.ok req2) (hm2 : req2.method = "tools/list") :
    (runServer [l1, l2]).map JsonRpcResponse.result = [some toolsListJson, some toolsListJson] ∧
    toolsListJson.index "tools" = Json.arr [encodeTool helloWorldTool, encodeTool checkPolicyTool] ∧
    helloWorldTool.name = "hello_world" ∧ checkPolicyTool.name = "check_policy" ∧
    ((encodeTool helloWorldTool).hasKey "name" && (encodeTool helloWorldTool).hasKey "description"
      && (encodeTool helloWorldTool).hasKey "inputSchema") = true ∧
    ((encodeTool checkPolicyTool).hasKey "name" && (encodeTool checkPolicyTool).hasKey "description"
      && (encodeTool checkPolicyTool).hasKey "inputSchema") = true := by
  refine ⟨?_, rfl, rfl, rfl, rfl, rfl⟩
  have hr1 := handle_request_tools_list AegisMcpServer.new req1 hm1
  have hr2 := handle_request_tools_list AegisMcpServer.new req2 hm2
  have hp1 := process_line_decode_ok AegisMcpServer.new l1 req1 hd1
  have hp2 := process_line_decode_ok AegisMcpServer.new l2 req2 hd2
  rw [hr1] at hp1
  rw [hr2] at hp2
  simp at hp1 hp2
  simp [runServer_cons, hp1, hp2, runServer_nil]

/-- Witness for C9 at concrete inputs: two `tools/list` requests with
identifiers `1` and `2`. -/
theorem tools_list_stable_wit :
    (runServer ["\x7b\"jsonrpc\":\"2.0\",\"id\":1,\"method\":\"tools/list\"\x7d",
      "\x7b\"jsonrpc\":\"2.0\",\"id\":2,\"method\":\"tools/list\"\x7d"]).map JsonRpcResponse.result
      = [some toolsListJson, some toolsListJson] :=
  (tools_list_stable
    "\x7b\"jsonrpc\":\"2.0\",\"id\":1,\"method\":\"tools/list\"\x7d"
    "\x7b\"jsonrpc\":\"2.0\",\"id\":2,\"method\":\"tools/list\"\x7d"
    { jsonrpc := "2.0", id := some (Json.num "1"), method := "tools/list", params := none }
    { jsonrpc := "2.0", id := some (Json.num "2"), method := "tools/list", params := none }
    rfl rfl rfl rfl).1

/-! Claim C10: tools/call is total over arbitrary params. -/

/-- Claim C10: `call_tool` answers every params shape with a descriptive
error rather than aborting: absent params fail with
`Missing parameters for tool call`; a params value without a string `name`
member — in particular any non-object, since indexing a non-object yields
`Null` — fails with `Missing tool name`. -/
theorem call_tool_total (j : Json) :
    AegisMcpServer.new.call_tool none = Except.error "Missing parameters for tool call" ∧
    ((Json.index j "name").asStr = none →
      AegisMcpServer.new.call_tool (some j) = Except.error "Missing tool name") ∧
    (j.isObj = false → Json.index j "name" = Json.null) := by
  refine ⟨rfl, fun h => ?_, fun h => ?_⟩
  · simp [AegisMcpServer.call_tool, contextErr, h]
  · cases j <;> simp_all [Json.isObj, Json.index, Json.get]

/-- Witness for C10 at a concrete input: params `3` (not an object) and
absent params both produce the descriptive errors. -/
theorem call_tool_total_wit :
    AegisMcpServer.new.call_tool (some (Json.num "3")) = Except.error "Missing tool name" ∧
    AegisMcpServer.new.call_tool none = Except.error "Missing parameters for tool call" :=
  ⟨(call_tool_total (Json.num "3")).2.1 rfl, (call_tool_total (Json.num "3")).1⟩
